import Mathlib

/-!
Verification of the `conversion` crate: a shallow embedding of its converters
(UTF-8 / UTF-16 / UTF-32 / ASCII transcoders, the exact-pattern converter, the
chaining combinator) and of its iterator drivers, with theorems settling the
specified properties.

Machine integers (`u8`, `u16`, `u32`, `usize`) are modelled as `Nat`; all
arithmetic the code performs stays in range, so no wrap-around modelling is
needed.  A character is modelled by its Unicode scalar value as a `Nat`.
A Rust `convert(&mut self, item, buf) -> Result<usize, Error>` call is embedded
as a pure function `state → item → state × List output × Except error Nat`:
the returned state reflects every mutation of `self` (also on the error path),
the list holds exactly the outputs appended to `buf` during the call, and the
`Except` value is the returned count or error.  `finalize(&mut self)` becomes
`state → state × Option error` (`none` = `Ok(())`).
-/

deriving instance DecidableEq for Except

/-- Error type of the UTF-8 decoder (`UTF8EncodingError`). -/
inductive UTF8EncodingError : Type where
  | mk
deriving DecidableEq

/-- Error type of the UTF-16 decoders (`UTF16EncodingError`). -/
inductive UTF16EncodingError : Type where
  | mk
deriving DecidableEq

/-- Error type of the UTF-32 decoders (`UTF32EncodingError`). -/
inductive UTF32EncodingError : Type where
  | mk
deriving DecidableEq

/-- Error type of the ASCII transcoders (`ASCIIEncodingError`). -/
inductive ASCIIEncodingError : Type where
  | mk
deriving DecidableEq

/-- Error type of `ExactConverter` (`UnmatchedError`). -/
inductive UnmatchedError : Type where
  | mk
deriving DecidableEq

/-- Error type of `ChainedConverter`, tagging which side failed. -/
inductive ChainedError (E F : Type) : Type where
  | First (e : E)
  | Second (e : F)
deriving DecidableEq

/-- Error type of the fallible-source drivers, tagging source vs conversion. -/
inductive CombinedError (S C : Type) : Type where
  | Stream (e : S)
  | Conversion (e : C)
deriving DecidableEq

/-- Rust `char::from_u32` succeeds exactly on Unicode scalar values: not a
surrogate and at most `0x10FFFF`. -/
def isScalarValue (c : Nat) : Bool :=
  c < 0xD800 || (0xE000 ≤ c && c ≤ 0x10FFFF)

/-- `UTF32Decoder::convert` (stateless): a `u32` decodes iff it is a scalar
value; returns the appended outputs and the count-or-error. -/
def UTF32Decoder.convert (item : Nat) : List Nat × Except UTF32EncodingError Nat :=
  if isScalarValue item then ([item], .ok 1) else ([], .error .mk)

/-- State of `UTF8Decoder`: remaining continuation bytes, the codepoint
accumulator, and the lower bound for the next continuation byte. -/
structure UTF8Decoder : Type where
  remain : Nat
  codepoint : Nat
  lower : Nat
deriving DecidableEq

/-- `UTF8Decoder::new` / `default`: all fields zero. -/
def UTF8Decoder.new : UTF8Decoder := ⟨0, 0, 0⟩

/-- `UTF8Decoder::convert`, byte by byte.  Note the continuation-byte test is
the half-open Rust range `self.lower..0xBF`, and `remain` is decremented
before the test, also on the error path. -/
def UTF8Decoder.convert (s : UTF8Decoder) (item : Nat) :
    UTF8Decoder × List Nat × Except UTF8EncodingError Nat :=
  if s.remain = 0 then
    if item ≤ 0x7F then (s, [item], .ok 1)
    else if 0xC2 ≤ item && item ≤ 0xDF then
      ({ remain := 1, codepoint := (item &&& 0x1F) <<< 6, lower := 0x80 }, [], .ok 0)
    else if 0xE0 ≤ item && item ≤ 0xEF then
      ({ remain := 2, codepoint := (item &&& 0x0F) <<< 12,
         lower := if item = 0xE0 then 0xA0 else 0x80 }, [], .ok 0)
    else if 0xF0 ≤ item && item ≤ 0xF4 then
      ({ remain := 3, codepoint := (item &&& 0x07) <<< 18,
         lower := if item = 0xF0 then 0x90 else 0x80 }, [], .ok 0)
    else (s, [], .error .mk)
  else
    let remain := s.remain - 1
    if s.lower ≤ item && item < 0xBF then
      let cp := s.codepoint ||| ((item &&& 0x3F) <<< (remain * 6))
      if remain = 0 then
        ({ remain := 0, codepoint := cp, lower := s.lower }, [cp], .ok 1)
      else
        ({ remain := remain, codepoint := cp, lower := 0x80 }, [], .ok 0)
    else ({ s with remain := remain }, [], .error .mk)

/-- `UTF8Decoder::finalize`: error iff continuation bytes are still pending. -/
def UTF8Decoder.finalize (s : UTF8Decoder) : Option UTF8EncodingError :=
  if s.remain = 0 then none else some .mk

/-- State of the 16-bit `UTF16Decoder`: an optional pending high surrogate. -/
structure UTF16Decoder : Type where
  buf : Option Nat
deriving DecidableEq

/-- `UTF16Decoder::new` / `default`. -/
def UTF16Decoder.new : UTF16Decoder := ⟨none⟩

/-- `UTF16Decoder::convert` on one 16-bit unit. -/
def UTF16Decoder.convert (s : UTF16Decoder) (item : Nat) :
    UTF16Decoder × List Nat × Except UTF16EncodingError Nat :=
  match s with
  | ⟨some w⟩ =>
    if item &&& 0xFC00 = 0xDC00 then
      let cp := ((((w &&& 0x3C0) >>> 6) + 1) <<< 16) ||| ((w &&& 0x3F) <<< 10)
        ||| (item &&& 0x3FF)
      let (outs, r) := UTF32Decoder.convert cp
      (⟨none⟩, outs, r.mapError fun _ => .mk)
    else (⟨none⟩, [], .error .mk)
  | ⟨none⟩ =>
    if item &&& 0xFC00 = 0xD800 then (⟨some item⟩, [], .ok 0)
    else if item &&& 0xFC00 = 0xDC00 then (⟨none⟩, [], .error .mk)
    else
      let (outs, r) := UTF32Decoder.convert item
      (⟨none⟩, outs, r.mapError fun _ => .mk)

/-- `UTF16Decoder::finalize`: error iff a high surrogate is pending. -/
def UTF16Decoder.finalize (s : UTF16Decoder) : Option UTF16EncodingError :=
  if s.buf.isNone then none else some .mk

/-- State of the byte-oriented `UTF16BEDecoder`: an optional pending byte plus
the inner 16-bit decoder. -/
structure UTF16BEDecoder : Type where
  byte : Option Nat
  inner : UTF16Decoder
deriving DecidableEq

/-- `UTF16BEDecoder::new` / `default`. -/
def UTF16BEDecoder.new : UTF16BEDecoder := ⟨none, UTF16Decoder.new⟩

/-- `UTF16BEDecoder::convert`: buffer one byte, then combine big-endian
(`u16::from_be_bytes([b, item])`) and feed the inner decoder. -/
def UTF16BEDecoder.convert (s : UTF16BEDecoder) (item : Nat) :
    UTF16BEDecoder × List Nat × Except UTF16EncodingError Nat :=
  match s with
  | ⟨some b, inner⟩ =>
    let (inner2, outs, r) := inner.convert ((b <<< 8) ||| item)
    (⟨none, inner2⟩, outs, r)
  | ⟨none, inner⟩ => (⟨some item, inner⟩, [], .ok 0)

/-- `UTF16BEDecoder::finalize`, exactly as written in the source: the inner
decoder is finalized first, then the lone-byte check returns `Ok` when a byte
IS pending and `Err` when none is. -/
def UTF16BEDecoder.finalize (s : UTF16BEDecoder) : Option UTF16EncodingError :=
  match s.inner.finalize with
  | some e => some e
  | none => if s.byte.isSome then none else some .mk

/-- State of the byte-oriented `UTF16LEDecoder`. -/
structure UTF16LEDecoder : Type where
  byte : Option Nat
  inner : UTF16Decoder
deriving DecidableEq

/-- `UTF16LEDecoder::new` / `default`. -/
def UTF16LEDecoder.new : UTF16LEDecoder := ⟨none, UTF16Decoder.new⟩

/-- `UTF16LEDecoder::convert`: buffer one byte, then combine little-endian
(`u16::from_le_bytes([b, item])`) and feed the inner decoder. -/
def UTF16LEDecoder.convert (s : UTF16LEDecoder) (item : Nat) :
    UTF16LEDecoder × List Nat × Except UTF16EncodingError Nat :=
  match s with
  | ⟨some b, inner⟩ =>
    let (inner2, outs, r) := inner.convert ((item <<< 8) ||| b)
    (⟨none, inner2⟩, outs, r)
  | ⟨none, inner⟩ => (⟨some item, inner⟩, [], .ok 0)

/-- `UTF16LEDecoder::finalize`: inner decoder first, then error iff a lone
byte is pending. -/
def UTF16LEDecoder.finalize (s : UTF16LEDecoder) : Option UTF16EncodingError :=
  match s.inner.finalize with
  | some e => some e
  | none => if s.byte.isNone then none else some .mk

/-- Rust `char::encode_utf16`: one unit below `0x10000`, otherwise a
high/low surrogate pair. -/
def utf16EncodeChar (c : Nat) : List Nat :=
  if c < 0x10000 then [c]
  else [0xD800 + ((c - 0x10000) >>> 10), 0xDC00 + ((c - 0x10000) &&& 0x3FF)]

/-- Rust `char::encode_utf8`: standard 1- to 4-byte bit packing. -/
def utf8EncodeChar (c : Nat) : List Nat :=
  if c < 0x80 then [c]
  else if c < 0x800 then [0xC0 ||| (c >>> 6), 0x80 ||| (c &&& 0x3F)]
  else if c < 0x10000 then
    [0xE0 ||| (c >>> 12), 0x80 ||| ((c >>> 6) &&& 0x3F), 0x80 ||| (c &&& 0x3F)]
  else
    [0xF0 ||| (c >>> 18), 0x80 ||| ((c >>> 12) &&& 0x3F),
     0x80 ||| ((c >>> 6) &&& 0x3F), 0x80 ||| (c &&& 0x3F)]

/-- `u16::to_be_bytes`. -/
def u16BEBytes (w : Nat) : List Nat := [(w >>> 8) &&& 0xFF, w &&& 0xFF]

/-- `u16::to_le_bytes`. -/
def u16LEBytes (w : Nat) : List Nat := [w &&& 0xFF, (w >>> 8) &&& 0xFF]

/-- `u32::to_be_bytes`. -/
def u32BEBytes (w : Nat) : List Nat :=
  [(w >>> 24) &&& 0xFF, (w >>> 16) &&& 0xFF, (w >>> 8) &&& 0xFF, w &&& 0xFF]

/-- `u32::to_le_bytes`. -/
def u32LEBytes (w : Nat) : List Nat :=
  [w &&& 0xFF, (w >>> 8) &&& 0xFF, (w >>> 16) &&& 0xFF, (w >>> 24) &&& 0xFF]

/-- `UTF8Encoder::convert` (stateless, infallible): append the UTF-8 bytes
and return their number. -/
def UTF8Encoder.convert (item : Nat) : List Nat × Nat :=
  (utf8EncodeChar item, (utf8EncodeChar item).length)

/-- `UTF16Encoder::convert` (stateless, infallible): append the UTF-16 units
and return their number. -/
def UTF16Encoder.convert (item : Nat) : List Nat × Nat :=
  (utf16EncodeChar item, (utf16EncodeChar item).length)

/-- `UTF16BEEncoder::convert`: append each unit's big-endian byte pair and
return `len * 2`. -/
def UTF16BEEncoder.convert (item : Nat) : List Nat × Nat :=
  ((utf16EncodeChar item).flatMap u16BEBytes, (utf16EncodeChar item).length * 2)

/-- `UTF16LEEncoder::convert`: append each unit's little-endian byte pair and
return `len * 2`. -/
def UTF16LEEncoder.convert (item : Nat) : List Nat × Nat :=
  ((utf16EncodeChar item).flatMap u16LEBytes, (utf16EncodeChar item).length * 2)

/-- `UTF32Encoder::convert`: the character's code point as one `u32`. -/
def UTF32Encoder.convert (item : Nat) : List Nat × Nat := ([item], 1)

/-- `UTF32BEEncoder::convert`: four big-endian bytes. -/
def UTF32BEEncoder.convert (item : Nat) : List Nat × Nat := (u32BEBytes item, 4)

/-- `UTF32LEEncoder::convert`: four little-endian bytes. -/
def UTF32LEEncoder.convert (item : Nat) : List Nat × Nat := (u32LEBytes item, 4)

/-- `ASCIIDecoder::convert`: a byte at most `0x7F` maps identically. -/
def ASCIIDecoder.convert (item : Nat) : List Nat × Except ASCIIEncodingError Nat :=
  if item ≤ 0x7F then ([item], .ok 1) else ([], .error .mk)

/-- `ASCIIEncoder::convert`: a code point at most `0x7F` maps identically. -/
def ASCIIEncoder.convert (item : Nat) : List Nat × Except ASCIIEncodingError Nat :=
  if item ≤ 0x7F then ([item], .ok 1) else ([], .error .mk)

/-- State of `UTF32BEDecoder` / `UTF32LEDecoder`: `bytes` is the filled
prefix of the 4-byte array (so `count = bytes.length`). -/
structure UTF32ByteDecoder : Type where
  bytes : List Nat
deriving DecidableEq

/-- `UTF32BEDecoder::convert`: accumulate 4 bytes, then decode big-endian. -/
def UTF32BEDecoder.convert (s : UTF32ByteDecoder) (item : Nat) :
    UTF32ByteDecoder × List Nat × Except UTF32EncodingError Nat :=
  if s.bytes.length = 3 then
    match s.bytes ++ [item] with
    | [a, b, c, d] =>
      let (outs, r) := UTF32Decoder.convert ((a <<< 24) ||| (b <<< 16) ||| (c <<< 8) ||| d)
      (⟨[]⟩, outs, r)
    | _ => (⟨[]⟩, [], .error .mk)
  else (⟨s.bytes ++ [item]⟩, [], .ok 0)

/-- `UTF32LEDecoder::convert`: accumulate 4 bytes, then decode little-endian. -/
def UTF32LEDecoder.convert (s : UTF32ByteDecoder) (item : Nat) :
    UTF32ByteDecoder × List Nat × Except UTF32EncodingError Nat :=
  if s.bytes.length = 3 then
    match s.bytes ++ [item] with
    | [a, b, c, d] =>
      let (outs, r) := UTF32Decoder.convert ((d <<< 24) ||| (c <<< 16) ||| (b <<< 8) ||| a)
      (⟨[]⟩, outs, r)
    | _ => (⟨[]⟩, [], .error .mk)
  else (⟨s.bytes ++ [item]⟩, [], .ok 0)

/-- `UTF32BEDecoder::finalize` / `UTF32LEDecoder::finalize`: error iff 1–3
bytes are pending. -/
def UTF32ByteDecoder.finalize (s : UTF32ByteDecoder) : Option UTF32EncodingError :=
  if s.bytes.length = 0 then none else some .mk

/-- `IntoConverter::convert`: convert one item with `TryInto`, appending the
single output on success. -/
def IntoConverter.convert {I O ε : Type} (f : I → Except ε O) (item : I) :
    List O × Except ε Nat :=
  match f item with
  | .ok o => ([o], .ok 1)
  | .error e => ([], .error e)

/-- `MapConverter::convert`: apply the function, append one output. -/
def MapConverter.convert {I O : Type} (f : I → O) (item : I) : List O × Nat :=
  ([f item], 1)

/-- `TryMapConverter::convert`: apply the fallible function, appending the
single output on success. -/
def TryMapConverter.convert {I O ε : Type} (f : I → Except ε O) (item : I) :
    List O × Except ε Nat :=
  match f item with
  | .ok o => ([o], .ok 1)
  | .error e => ([], .error e)

/-- `IterConverter::convert`: append everything the function's iterator
yields, returning `Ok(1)`. -/
def IterConverter.convert {I O : Type} (f : I → List O) (item : I) :
    List O × Nat :=
  (f item, 1)

/-- `TryIterConverter::convert`: append the iterator's items on success,
returning `Ok(1)`. -/
def TryIterConverter.convert {I O ε : Type} (f : I → Except ε (List O)) (item : I) :
    List O × Except ε Nat :=
  match f item with
  | .ok l => (l, .ok 1)
  | .error e => ([], .error e)

/-- State of `ExactConverter`: the not-yet-matched tail of the expected
iterator, and the `is_ended` flag. -/
structure ExactConverter (I : Type) : Type where
  iter : List I
  is_ended : Bool
deriving DecidableEq

/-- `ExactConverter::convert`: consume expected items one by one without
emitting outputs; mismatch is an error, exhaustion of the pattern sets the
ended flag. -/
def ExactConverter.convert {I O : Type} [DecidableEq I]
    (s : ExactConverter I) (item : I) :
    ExactConverter I × List O × Except UnmatchedError Nat :=
  if s.is_ended then (s, [], .ok 0)
  else
    match s.iter with
    | [] => (⟨[], true⟩, [], .ok 0)
    | i :: rest =>
      if i = item then (⟨rest, s.is_ended⟩, [], .ok 0)
      else (⟨rest, s.is_ended⟩, [], .error .mk)

/-- A converter bundled for use by the drivers and the chaining combinator:
the `Converter` trait operations over a state type `σ`. -/
structure MConverter (σ I O ε : Type) : Type where
  convert : σ → I → σ × List O × Except ε Nat
  is_ended : σ → Bool
  finalize : σ → σ × Option ε

/-- `UTF8Decoder` as a bundled converter (default `is_ended`). -/
def UTF8Decoder.mc : MConverter UTF8Decoder Nat Nat UTF8EncodingError where
  convert := UTF8Decoder.convert
  is_ended := fun _ => false
  finalize := fun s => (s, s.finalize)

/-- `UTF16Decoder` as a bundled converter. -/
def UTF16Decoder.mc : MConverter UTF16Decoder Nat Nat UTF16EncodingError where
  convert := UTF16Decoder.convert
  is_ended := fun _ => false
  finalize := fun s => (s, s.finalize)

/-- `UTF16BEDecoder` as a bundled converter. -/
def UTF16BEDecoder.mc : MConverter UTF16BEDecoder Nat Nat UTF16EncodingError where
  convert := UTF16BEDecoder.convert
  is_ended := fun _ => false
  finalize := fun s => (s, s.finalize)

/-- `UTF16LEDecoder` as a bundled converter. -/
def UTF16LEDecoder.mc : MConverter UTF16LEDecoder Nat Nat UTF16EncodingError where
  convert := UTF16LEDecoder.convert
  is_ended := fun _ => false
  finalize := fun s => (s, s.finalize)

/-- `UTF16Encoder` as a bundled converter (stateless, infallible). -/
def UTF16Encoder.mc : MConverter Unit Nat Nat Empty where
  convert := fun _ i => ((), (UTF16Encoder.convert i).1, .ok (UTF16Encoder.convert i).2)
  is_ended := fun _ => false
  finalize := fun s => (s, none)

/-- `ASCIIDecoder` as a bundled converter (stateless). -/
def ASCIIDecoder.mc : MConverter Unit Nat Nat ASCIIEncodingError where
  convert := fun _ i => ((), (ASCIIDecoder.convert i).1, (ASCIIDecoder.convert i).2)
  is_ended := fun _ => false
  finalize := fun s => (s, none)

/-- `ExactConverter` over `Nat` items as a bundled converter (default
`finalize`, real `is_ended`). -/
def ExactConverter.mc : MConverter (ExactConverter Nat) Nat Nat UnmatchedError where
  convert := ExactConverter.convert
  is_ended := fun s => s.is_ended
  finalize := fun s => (s, none)

/-- State of `ChainedConverter`: both inner converter states plus the
`first_ended` flag. -/
structure ChainedConverter (σ τ : Type) : Type where
  first : σ
  second : τ
  first_ended : Bool
deriving DecidableEq

/-- `ChainedConverter::convert`: route to `first` until `first.is_ended()` is
observed after an `Ok(0)` call; at that transition set the flag, run
`first.finalize()` (tagging its error `First`), and retry the same item on
`second`; afterwards route to `second` only. -/
def ChainedConverter.convert {σ τ I O ε1 ε2 : Type}
    (c1 : MConverter σ I O ε1) (c2 : MConverter τ I O ε2)
    (s : ChainedConverter σ τ) (item : I) :
    ChainedConverter σ τ × List O × Except (ChainedError ε1 ε2) Nat :=
  if s.first_ended then
    match c2.convert s.second item with
    | (t2, outs, r) => (⟨s.first, t2, true⟩, outs, r.mapError ChainedError.Second)
  else
    match c1.convert s.first item with
    | (f2, outs1, .ok 0) =>
      if c1.is_ended f2 then
        match c1.finalize f2 with
        | (f3, some err) => (⟨f3, s.second, true⟩, outs1, .error (ChainedError.First err))
        | (f3, none) =>
          match c2.convert s.second item with
          | (t2, outs2, r2) => (⟨f3, t2, true⟩, outs1 ++ outs2, r2.mapError ChainedError.Second)
      else (⟨f2, s.second, false⟩, outs1, .ok 0)
    | (f2, outs1, .ok (n + 1)) => (⟨f2, s.second, false⟩, outs1, .ok (n + 1))
    | (f2, outs1, .error e) => (⟨f2, s.second, false⟩, outs1, .error (ChainedError.First e))

/-- `ChainedConverter::finalize`: delegate to `second` only. -/
def ChainedConverter.finalize {σ τ I O ε1 ε2 : Type}
    (_c1 : MConverter σ I O ε1) (c2 : MConverter τ I O ε2)
    (s : ChainedConverter σ τ) :
    ChainedConverter σ τ × Option (ChainedError ε1 ε2) :=
  match c2.finalize s.second with
  | (t2, e) => (⟨s.first, t2, s.first_ended⟩, e.map ChainedError.Second)

/-- `ChainedConverter::size_hint` as declared in the source. -/
def ChainedConverter.size_hint : Nat × Option Nat := (0, some 0)

/-- `ASCIIDecoder::size_hint`. -/
def ASCIIDecoder.size_hint : Nat × Option Nat := (1, some 1)

/-- `ASCIIEncoder::size_hint`. -/
def ASCIIEncoder.size_hint : Nat × Option Nat := (1, some 1)

/-- `UTF8Decoder::size_hint`. -/
def UTF8Decoder.size_hint : Nat × Option Nat := (0, some 1)

/-- `UTF8Encoder::size_hint`. -/
def UTF8Encoder.size_hint : Nat × Option Nat := (1, some 4)

/-- `UTF16Decoder::size_hint`. -/
def UTF16Decoder.size_hint : Nat × Option Nat := (0, some 1)

/-- `UTF16Encoder::size_hint`. -/
def UTF16Encoder.size_hint : Nat × Option Nat := (1, some 2)

/-- `UTF16BEDecoder::size_hint`. -/
def UTF16BEDecoder.size_hint : Nat × Option Nat := (0, some 1)

/-- `UTF16LEDecoder::size_hint`. -/
def UTF16LEDecoder.size_hint : Nat × Option Nat := (0, some 1)

/-- `UTF16BEEncoder::size_hint`. -/
def UTF16BEEncoder.size_hint : Nat × Option Nat := (2, some 4)

/-- `UTF16LEEncoder::size_hint`. -/
def UTF16LEEncoder.size_hint : Nat × Option Nat := (2, some 4)

/-- `UTF32Decoder::size_hint`. -/
def UTF32Decoder.size_hint : Nat × Option Nat := (1, some 1)

/-- `UTF32Encoder::size_hint`. -/
def UTF32Encoder.size_hint : Nat × Option Nat := (1, some 1)

/-- `UTF32BEDecoder::size_hint` and `UTF32LEDecoder::size_hint`. -/
def UTF32ByteDecoder.size_hint : Nat × Option Nat := (0, some 1)

/-- `UTF32BEEncoder::size_hint`. -/
def UTF32BEEncoder.size_hint : Nat × Option Nat := (4, some 4)

/-- `UTF32LEEncoder::size_hint`. -/
def UTF32LEEncoder.size_hint : Nat × Option Nat := (4, some 4)

/-- `ExactConverter::size_hint`. -/
def ExactConverter.size_hint : Nat × Option Nat := (0, some 0)

/-- `IntoConverter::size_hint`. -/
def IntoConverter.size_hint : Nat × Option Nat := (1, some 1)

/-- `MapConverter::size_hint`. -/
def MapConverter.size_hint : Nat × Option Nat := (1, some 1)

/-- `TryMapConverter::size_hint`. -/
def TryMapConverter.size_hint : Nat × Option Nat := (1, some 1)

/-- `IterConverter`'s `size_hint` is the trait default `(0, None)`. -/
def IterConverter.size_hint : Nat × Option Nat := (0, none)

/-- `TryIterConverter::size_hint`. -/
def TryIterConverter.size_hint : Nat × Option Nat := (1, some 1)

/-- Whether a returned output count lies within declared size-hint bounds. -/
def withinHint (h : Nat × Option Nat) (n : Nat) : Bool :=
  h.1 ≤ n &&
    match h.2 with
    | none => true
    | some m => n ≤ m

/-- `ChainedConverter` as a bundled converter. -/
def MConverter.chain {σ τ I O ε1 ε2 : Type}
    (c1 : MConverter σ I O ε1) (c2 : MConverter τ I O ε2) :
    MConverter (ChainedConverter σ τ) I O (ChainedError ε1 ε2) where
  convert := ChainedConverter.convert c1 c2
  is_ended := fun s => c2.is_ended s.second
  finalize := ChainedConverter.finalize c1 c2

/-- State of the synchronous driver `ConvertedIterator`: the FIFO output
buffer (front = head), the remaining source items, and the converter state. -/
structure ConvertedIterator (σ I O : Type) : Type where
  buffer : List O
  source : List I
  converter : σ
deriving DecidableEq

/-- The empty-buffer loop of `ConvertedIterator::next`.  The third component
of the result counts how many times `finalize` was invoked during the call. -/
def nextLoop {σ I O ε : Type} (c : MConverter σ I O ε) :
    σ → List O → List I →
    Option (Except ε O) × ConvertedIterator σ I O × Nat
  | st, buf, [] =>
    match c.finalize st with
    | (st2, none) => (none, ⟨buf, [], st2⟩, 1)
    | (st2, some e) => (some (.error e), ⟨buf, [], st2⟩, 1)
  | st, buf, i :: rest =>
    match c.convert st i with
    | (st2, outs, .error e) => (some (.error e), ⟨buf ++ outs, rest, st2⟩, 0)
    | (st2, outs, .ok 0) =>
      if c.is_ended st2 then
        match c.finalize st2 with
        | (st3, none) => (none, ⟨buf ++ outs, rest, st3⟩, 1)
        | (st3, some e) => (some (.error e), ⟨buf ++ outs, rest, st3⟩, 1)
      else nextLoop c st2 (buf ++ outs) rest
    | (st2, outs, .ok (_ + 1)) =>
      match buf ++ outs with
      | [] => (none, ⟨[], rest, st2⟩, 0)
      | o :: os => (some (.ok o), ⟨os, rest, st2⟩, 0)

/-- `ConvertedIterator::next`: pop the buffer if non-empty, otherwise run the
pull-convert loop.  Also reports the number of `finalize` invocations. -/
def MConverter.next {σ I O ε : Type} (c : MConverter σ I O ε)
    (s : ConvertedIterator σ I O) :
    Option (Except ε O) × ConvertedIterator σ I O × Nat :=
  match s.buffer with
  | o :: os => (some (.ok o), ⟨os, s.source, s.converter⟩, 0)
  | [] => nextLoop c s.converter [] s.source

/-- Iterate `next` a given number of times, collecting the results and the
total number of `finalize` invocations. -/
def MConverter.nextRun {σ I O ε : Type} (c : MConverter σ I O ε) :
    Nat → ConvertedIterator σ I O →
    List (Option (Except ε O)) × ConvertedIterator σ I O × Nat
  | 0, s => ([], s, 0)
  | k + 1, s =>
    match MConverter.next c s with
    | (r, s2, n) =>
      match MConverter.nextRun c k s2 with
      | (rs, s3, m) => (r :: rs, s3, n + m)

/-- State of the fallible-source driver `ConvertedTryIterator`. -/
structure ConvertedTryIterator (σ E I O : Type) : Type where
  buffer : List O
  source : List (Except E I)
  converter : σ
deriving DecidableEq

/-- The empty-buffer loop of `ConvertedTryIterator::next`: a source error is
surfaced as `Stream` without touching the converter; conversion and finalize
errors are tagged `Conversion`.  The third component counts `finalize`
invocations. -/
def tryNextLoop {σ E I O ε : Type} (c : MConverter σ I O ε) :
    σ → List O → List (Except E I) →
    Option (Except (CombinedError E ε) O) × ConvertedTryIterator σ E I O × Nat
  | st, buf, [] =>
    match c.finalize st with
    | (st2, none) => (none, ⟨buf, [], st2⟩, 1)
    | (st2, some e) => (some (.error (.Conversion e)), ⟨buf, [], st2⟩, 1)
  | st, buf, .error e :: rest => (some (.error (.Stream e)), ⟨buf, rest, st⟩, 0)
  | st, buf, .ok i :: rest =>
    match c.convert st i with
    | (st2, outs, .error e) =>
      (some (.error (.Conversion e)), ⟨buf ++ outs, rest, st2⟩, 0)
    | (st2, outs, .ok 0) =>
      if c.is_ended st2 then
        match c.finalize st2 with
        | (st3, none) => (none, ⟨buf ++ outs, rest, st3⟩, 1)
        | (st3, some e) => (some (.error (.Conversion e)), ⟨buf ++ outs, rest, st3⟩, 1)
      else tryNextLoop c st2 (buf ++ outs) rest
    | (st2, outs, .ok (_ + 1)) =>
      match buf ++ outs with
      | [] => (none, ⟨[], rest, st2⟩, 0)
      | o :: os => (some (.ok o), ⟨os, rest, st2⟩, 0)

/-- `ConvertedTryIterator::next`. -/
def MConverter.tryNext {σ E I O ε : Type} (c : MConverter σ I O ε)
    (s : ConvertedTryIterator σ E I O) :
    Option (Except (CombinedError E ε) O) × ConvertedTryIterator σ E I O × Nat :=
  match s.buffer with
  | o :: os => (some (.ok o), ⟨os, s.source, s.converter⟩, 0)
  | [] => tryNextLoop c s.converter [] s.source

/-- Feed a whole input list through a converter, collecting all outputs; the
last component is the first conversion error, if any (conversion stops
there, as the contract demands). -/
def MConverter.convertAll {σ I O ε : Type} (c : MConverter σ I O ε) :
    σ → List I → σ × List O × Option ε
  | s, [] => (s, [], none)
  | s, i :: rest =>
    match c.convert s i with
    | (s2, outs, .error e) => (s2, outs, some e)
    | (s2, outs, .ok _) =>
      match MConverter.convertAll c s2 rest with
      | (s3, outs2, e) => (s3, outs ++ outs2, e)

/-- C1: in a pending-continuation state the decoder's range test is the
half-open `self.lower..0xBF`, so continuation byte `0xBF` is rejected even
though `[lower, 0xBF]` is the valid UTF-8 continuation range: after the lead
byte `0xC3` (which is accepted, buffering with lower bound `0x80`), the byte
`0xBE` completes U+00FE but `0xBF` (which would complete U+00FF) returns an
immediate error. -/
theorem utf8Decoder_rejects_continuation_0xBF :
    ((UTF8Decoder.convert UTF8Decoder.new 0xC3).2.2 = .ok 0) ∧
    ((UTF8Decoder.convert UTF8Decoder.new 0xC3).1 =
      { remain := 1, codepoint := 0xC0, lower := 0x80 }) ∧
    (((UTF8Decoder.convert UTF8Decoder.new 0xC3).1.convert 0xBE).2 =
      ([0xFE], .ok 1)) ∧
    (((UTF8Decoder.convert UTF8Decoder.new 0xC3).1.convert 0xBF).2 =
      ([], .error .mk)) := by decide

/-- C2: `UTF16BEDecoder::finalize` has the lone-byte check inverted: with no
pending byte and no pending surrogate it returns an error, and with a lone
pending byte it returns `Ok`; `UTF16LEDecoder::finalize` behaves as the claim
states on the same three states. -/
theorem utf16BEDecoder_finalize_inverted :
    (UTF16BEDecoder.finalize ⟨none, ⟨none⟩⟩ = some .mk) ∧
    (UTF16BEDecoder.finalize ⟨some 0x00, ⟨none⟩⟩ = none) ∧
    (UTF16BEDecoder.finalize ⟨none, ⟨some 0xD834⟩⟩ = some .mk) ∧
    (UTF16LEDecoder.finalize ⟨none, ⟨none⟩⟩ = none) ∧
    (UTF16LEDecoder.finalize ⟨some 0x00, ⟨none⟩⟩ = some .mk) ∧
    (UTF16LEDecoder.finalize ⟨none, ⟨some 0xD834⟩⟩ = some .mk) := by decide

/-- C7: encode-then-decode round-trips exactly, including the surrogate pair
for U+1D11E, at the unit level and through the little-endian byte variant
(decoding ends in the fresh state and `finalize` succeeds); but through the
big-endian byte variant decoding even the single character U+0041 ends in the
fresh state on which `UTF16BEDecoder::finalize` reports an error, so the BE
round trip including `finalize` fails. -/
theorem utf16_roundtrip_le_ok_be_finalize_fails :
    (MConverter.convertAll UTF16Decoder.mc UTF16Decoder.new
        ([0x1D11E, 0x6D].flatMap utf16EncodeChar) =
      (UTF16Decoder.new, [0x1D11E, 0x6D], none)) ∧
    (UTF16Decoder.finalize UTF16Decoder.new = none) ∧
    (MConverter.convertAll UTF16LEDecoder.mc UTF16LEDecoder.new
        (([0x1D11E, 0x6D].flatMap utf16EncodeChar).flatMap u16LEBytes) =
      (UTF16LEDecoder.new, [0x1D11E, 0x6D], none)) ∧
    (UTF16LEDecoder.finalize UTF16LEDecoder.new = none) ∧
    (MConverter.convertAll UTF16BEDecoder.mc UTF16BEDecoder.new
        (([0x41].flatMap utf16EncodeChar).flatMap u16BEBytes) =
      (UTF16BEDecoder.new, [0x41], none)) ∧
    (UTF16BEDecoder.finalize UTF16BEDecoder.new = some .mk) := by decide

/-- C3 counterexample: on an already-exhausted source every further `next()`
call with an empty buffer invokes `finalize` again — here the first call and
the second call each invoke it once, so it is not invoked exactly once across
the whole sequence of `next()` calls. -/
theorem convertedIterator_next_repeats_finalize :
    ((MConverter.next UTF8Decoder.mc ⟨[], [], UTF8Decoder.new⟩).2.2 = 1) ∧
    ((MConverter.next UTF8Decoder.mc
        (MConverter.next UTF8Decoder.mc ⟨[], [], UTF8Decoder.new⟩).2.1).2.2 = 1) := by
  decide

/-- C4 counterexample: a `ChainedConverter` whose first converter has not
ended delegates to it, here appending one output and returning `Ok(1)`, which
lies outside its own declared `size_hint` of `(0, Some(0))`. -/
theorem chainedConverter_violates_size_hint :
    ((ChainedConverter.convert ASCIIDecoder.mc ASCIIDecoder.mc
        ⟨(), (), false⟩ 0x41).2 = ([0x41], .ok 1)) ∧
    (ChainedConverter.size_hint = (0, some 0)) ∧
    (withinHint ChainedConverter.size_hint 1 = false) := by decide

/-- Helper for the driver loop: one `next` call runs `finalize` at most once. -/
theorem nextLoop_finalize_count_le_one {σ I O ε : Type} (c : MConverter σ I O ε)
    (src : List I) : ∀ (st : σ) (buf : List O),
    (nextLoop c st buf src).2.2 ≤ 1 := by
  induction src with
  | nil =>
    intro st buf
    simp only [nextLoop]
    rcases c.finalize st with ⟨st2, e⟩
    rcases e <;> simp
  | cons i rest ih =>
    intro st buf
    simp only [nextLoop]
    rcases c.convert st i with ⟨st2, outs, r⟩
    rcases r with e | n
    · simp
    · rcases n with _ | n
      · by_cases h : c.is_ended st2
        · simp only [h, if_true]
          rcases c.finalize st2 with ⟨st3, e⟩
          rcases e <;> simp
        · simp only [h, if_false]
          exact ih st2 (buf ++ outs)
      · rcases h2 : buf ++ outs with _ | ⟨o, os⟩ <;> simp [h2]

/-- C3 (amended): each `ConvertedIterator::next` call invokes `finalize` at
most once; a call served from a non-empty buffer never invokes it; and every
call made with an empty buffer on an exhausted source invokes it (again), so
continued `next()` calls after the end re-invoke `finalize` once per call. -/
theorem convertedIterator_finalize_per_next_call {σ I O ε : Type}
    (c : MConverter σ I O ε) (s : ConvertedIterator σ I O) :
    ((MConverter.next c s).2.2 ≤ 1) ∧
    (s.buffer ≠ [] → (MConverter.next c s).2.2 = 0) ∧
    (s.buffer = [] → s.source = [] → (MConverter.next c s).2.2 = 1) := by
  obtain ⟨buf, src, st⟩ := s
  refine ⟨?_, ?_, ?_⟩
  · rcases buf with _ | ⟨o, os⟩
    · exact nextLoop_finalize_count_le_one c src st []
    · simp [MConverter.next]
  · intro h
    rcases buf with _ | ⟨o, os⟩
    · simp at h
    · simp [MConverter.next]
  · intro h1 h2
    simp only at h1 h2
    subst h1 h2
    simp only [MConverter.next, nextLoop]
    rcases c.finalize st with ⟨st2, e⟩
    rcases e <;> simp

/-- Witness for the per-call `finalize` accounting, at concrete states of the
UTF-8 decoder driver. -/
theorem convertedIterator_finalize_per_next_call_witness :
    ((MConverter.next UTF8Decoder.mc ⟨[0x41], [], UTF8Decoder.new⟩).2.2 = 0) ∧
    ((MConverter.next UTF8Decoder.mc ⟨[], [], UTF8Decoder.new⟩).2.2 = 1) :=
  ⟨(convertedIterator_finalize_per_next_call UTF8Decoder.mc
      ⟨[0x41], [], UTF8Decoder.new⟩).2.1 (by decide),
   (convertedIterator_finalize_per_next_call UTF8Decoder.mc
      ⟨[], [], UTF8Decoder.new⟩).2.2 rfl rfl⟩

/-- Helper: from a state whose buffer holds `l`, running `next` `l.length`
times pops exactly the buffered outputs, one per call, touching neither the
source nor the converter and never invoking `finalize`. -/
theorem nextRun_drains_buffer {σ I O ε : Type} (c : MConverter σ I O ε)
    (l : List O) : ∀ (src : List I) (st : σ),
    MConverter.nextRun c l.length ⟨l, src, st⟩ =
      (l.map fun o => some (.ok o), ⟨[], src, st⟩, 0) := by
  induction l with
  | nil => intro src st; simp [MConverter.nextRun]
  | cons o os ih =>
    intro src st
    simp [MConverter.nextRun, MConverter.next, ih src st]

/-- C5: if the buffer is empty and converting the next source item appends
`n > 0` outputs (returning that count), then `n` successive `next` calls
yield exactly those outputs in order, each as a success; only the one
triggering item is pulled from the source, nothing else is pulled while the
buffer drains, and `finalize` is never invoked. -/
theorem convertedIterator_yields_outputs_one_at_a_time {σ I O ε : Type}
    (c : MConverter σ I O ε) (s : ConvertedIterator σ I O)
    (i : I) (rest : List I) (st2 : σ) (outs : List O) (n : Nat)
    (hbuf : s.buffer = []) (hsrc : s.source = i :: rest)
    (hconv : c.convert s.converter i = (st2, outs, .ok n))
    (hlen : n = outs.length) (hpos : 0 < n) :
    MConverter.nextRun c n s =
      (outs.map fun o => some (.ok o), ⟨[], rest, st2⟩, 0) := by
  obtain ⟨buf, src, st⟩ := s
  simp only at hbuf hsrc hconv
  subst hbuf hsrc
  rcases n with _ | m
  · omega
  · rcases outs with _ | ⟨o, os⟩
    · simp at hlen
    · have hm : m = os.length := by simpa using hlen
      subst hm
      simp only [MConverter.nextRun, MConverter.next, nextLoop, hconv,
        List.nil_append, nextRun_drains_buffer c os rest st2]
      simp

/-- Witness for the buffer-draining theorem: the UTF-16 encoder produces the
surrogate pair for U+1D11E in one `convert` call and the driver yields the
two units over two successive `next` calls. -/
theorem convertedIterator_yields_outputs_one_at_a_time_witness :
    MConverter.nextRun UTF16Encoder.mc 2 ⟨[], [0x1D11E], ()⟩ =
      ([some (.ok 0xD834), some (.ok 0xDD1E)], ⟨[], [], ()⟩, 0) := by
  have h := convertedIterator_yields_outputs_one_at_a_time UTF16Encoder.mc
    ⟨[], [0x1D11E], ()⟩ 0x1D11E [] () [0xD834, 0xDD1E] 2 rfl rfl
    (by decide) (by decide) (by decide)
  simpa using h

/-- C6: routing of `ChainedConverter::convert`.  While `first_ended` is set
the item goes to `second` only and `first` is untouched; while it is unset
the item goes to `first`, and exactly when `first` returns `Ok(0)` and then
reports `is_ended`, the flag is set permanently, `first.finalize()` runs
(its error propagating tagged `First`), and on success the same triggering
item is immediately retried against `second`. -/
theorem chainedConverter_routing {σ τ I O ε1 ε2 : Type}
    (c1 : MConverter σ I O ε1) (c2 : MConverter τ I O ε2)
    (s : ChainedConverter σ τ) (i : I) :
    (s.first_ended = true →
      ChainedConverter.convert c1 c2 s i =
        (⟨s.first, (c2.convert s.second i).1, true⟩, (c2.convert s.second i).2.1,
          ((c2.convert s.second i).2.2).mapError ChainedError.Second)) ∧
    (∀ f2 outs, s.first_ended = false →
      c1.convert s.first i = (f2, outs, .ok 0) → c1.is_ended f2 = false →
      ChainedConverter.convert c1 c2 s i = (⟨f2, s.second, false⟩, outs, .ok 0)) ∧
    (∀ f2 outs n, s.first_ended = false →
      c1.convert s.first i = (f2, outs, .ok (n + 1)) →
      ChainedConverter.convert c1 c2 s i = (⟨f2, s.second, false⟩, outs, .ok (n + 1))) ∧
    (∀ f2 outs e, s.first_ended = false →
      c1.convert s.first i = (f2, outs, .error e) →
      ChainedConverter.convert c1 c2 s i =
        (⟨f2, s.second, false⟩, outs, .error (ChainedError.First e))) ∧
    (∀ f2 outs f3 err, s.first_ended = false →
      c1.convert s.first i = (f2, outs, .ok 0) → c1.is_ended f2 = true →
      c1.finalize f2 = (f3, some err) →
      ChainedConverter.convert c1 c2 s i =
        (⟨f3, s.second, true⟩, outs, .error (ChainedError.First err))) ∧
    (∀ f2 outs f3, s.first_ended = false →
      c1.convert s.first i = (f2, outs, .ok 0) → c1.is_ended f2 = true →
      c1.finalize f2 = (f3, none) →
      ChainedConverter.convert c1 c2 s i =
        (⟨f3, (c2.convert s.second i).1, true⟩, outs ++ (c2.convert s.second i).2.1,
          ((c2.convert s.second i).2.2).mapError ChainedError.Second)) := by
  refine ⟨?_, ?_, ?_, ?_, ?_, ?_⟩
  · intro h
    simp only [ChainedConverter.convert, h, if_true]
  · intro f2 outs h h1 h2
    simp only [ChainedConverter.convert, h, Bool.false_eq_true, if_false, h1, h2]
  · intro f2 outs n h h1
    simp only [ChainedConverter.convert, h, Bool.false_eq_true, if_false, h1]
  · intro f2 outs e h h1
    simp only [ChainedConverter.convert, h, Bool.false_eq_true, if_false, h1]
  · intro f2 outs f3 err h h1 h2 h3
    simp only [ChainedConverter.convert, h, Bool.false_eq_true, if_false, h1, h2,
      if_true, h3]
  · intro f2 outs f3 h h1 h2 h3
    simp only [ChainedConverter.convert, h, Bool.false_eq_true, if_false, h1, h2,
      if_true, h3]

/-- Witness for the routing theorem at the transition: an exhausted
`ExactConverter` returns `Ok(0)` and reports ended, its `finalize` succeeds,
the flag flips, and the triggering byte is retried on the second (ASCII)
converter, which emits it. -/
theorem chainedConverter_routing_witness :
    ChainedConverter.convert ExactConverter.mc ASCIIDecoder.mc
      ⟨⟨[], false⟩, (), false⟩ 0x41 = (⟨⟨[], true⟩, (), true⟩, [0x41], .ok 1) := by
  have h := (chainedConverter_routing ExactConverter.mc ASCIIDecoder.mc
      ⟨⟨[], false⟩, (), false⟩ 0x41).2.2.2.2.2 ⟨[], true⟩ [] ⟨[], true⟩
    rfl (by decide) (by decide) (by decide)
  simpa using h

/-- C9: `ChainedConverter::finalize` delegates to `second` only — the first
converter's state is left untouched and its `finalize` result plays no role.
Consequently trailing incomplete state in `first` goes unreported: driving
`chain(UTF8Decoder, UTF8Decoder)` over the lone lead byte `0xC3` ends without
any error, while the plain `UTF8Decoder` driver reports the truncated
sequence at `finalize`. -/
theorem chainedConverter_finalize_skips_first :
    (∀ (σ τ I O ε1 ε2 : Type) (c1 : MConverter σ I O ε1)
        (c2 : MConverter τ I O ε2) (s : ChainedConverter σ τ),
      ChainedConverter.finalize c1 c2 s =
        (⟨s.first, (c2.finalize s.second).1, s.first_ended⟩,
          ((c2.finalize s.second).2).map ChainedError.Second)) ∧
    ((MConverter.next (MConverter.chain UTF8Decoder.mc UTF8Decoder.mc)
        ⟨[], [0xC3], ⟨UTF8Decoder.new, UTF8Decoder.new, false⟩⟩).1 = none) ∧
    ((MConverter.next UTF8Decoder.mc ⟨[], [0xC3], UTF8Decoder.new⟩).1 =
      some (.error .mk)) := by
  refine ⟨?_, by decide, by decide⟩
  intro σ τ I O ε1 ε2 c1 c2 s
  simp only [ChainedConverter.finalize]

/-- Helper for the fallible-source loop: `finalize` runs at most once per
call. -/
theorem tryNextLoop_finalize_count_le_one {σ E I O ε : Type}
    (c : MConverter σ I O ε) (src : List (Except E I)) :
    ∀ (st : σ) (buf : List O), (tryNextLoop c st buf src).2.2 ≤ 1 := by
  induction src with
  | nil =>
    intro st buf
    simp only [tryNextLoop]
    rcases c.finalize st with ⟨st2, e⟩
    rcases e <;> simp
  | cons i rest ih =>
    intro st buf
    rcases i with e | i
    · simp [tryNextLoop]
    · simp only [tryNextLoop]
      rcases c.convert st i with ⟨st2, outs, r⟩
      rcases r with e | n
      · simp
      · rcases n with _ | n
        · by_cases h : c.is_ended st2
          · simp only [h, if_true]
            rcases c.finalize st2 with ⟨st3, e⟩
            rcases e <;> simp
          · simp only [h, if_false]
            exact ih st2 (buf ++ outs)
        · rcases h2 : buf ++ outs with _ | ⟨o, os⟩ <;> simp [h2]

/-- Helper for the fallible-source loop: whenever `finalize` ran during the
call, the call's result is `none` or a `Conversion`-tagged error — never a
`Stream`-tagged one — so `finalize` is never invoked on a step in which the
source yielded an error. -/
theorem tryNextLoop_finalize_only_terminal {σ E I O ε : Type}
    (c : MConverter σ I O ε) (src : List (Except E I)) :
    ∀ (st : σ) (buf : List O), (tryNextLoop c st buf src).2.2 = 1 →
      (tryNextLoop c st buf src).1 = none ∨
        ∃ ce, (tryNextLoop c st buf src).1 = some (.error (.Conversion ce)) := by
  induction src with
  | nil =>
    intro st buf
    simp only [tryNextLoop]
    rcases c.finalize st with ⟨st2, e⟩
    rcases e with _ | e
    · intro; left; rfl
    · intro; right; exact ⟨e, rfl⟩
  | cons i rest ih =>
    intro st buf
    rcases i with e | i
    · simp [tryNextLoop]
    · simp only [tryNextLoop]
      rcases c.convert st i with ⟨st2, outs, r⟩
      rcases r with e | n
      · simp
      · rcases n with _ | n
        · by_cases h : c.is_ended st2
          · simp only [h, if_true]
            rcases c.finalize st2 with ⟨st3, e⟩
            rcases e with _ | e
            · intro; left; rfl
            · intro; right; exact ⟨e, rfl⟩
          · simp only [h, if_false]
            exact ih st2 (buf ++ outs)
        · rcases h2 : buf ++ outs with _ | ⟨o, os⟩ <;> simp [h2]

/-- C8: the fallible-source driver surfaces a source error as a
`Stream`-tagged `CombinedError` without touching the converter, surfaces a
converter failure as a `Conversion`-tagged error, runs `finalize` at most
once per call, and whenever it does run `finalize` the call's outcome is end
of iteration or a `Conversion`-tagged error — never a `Stream` step. -/
theorem convertedTryIterator_error_discrimination {σ E I O ε : Type}
    (c : MConverter σ I O ε) (s : ConvertedTryIterator σ E I O) :
    (∀ e rest, s.buffer = [] → s.source = .error e :: rest →
      MConverter.tryNext c s = (some (.error (.Stream e)), ⟨[], rest, s.converter⟩, 0)) ∧
    (∀ i rest st2 outs err, s.buffer = [] → s.source = .ok i :: rest →
      c.convert s.converter i = (st2, outs, .error err) →
      MConverter.tryNext c s = (some (.error (.Conversion err)), ⟨outs, rest, st2⟩, 0)) ∧
    ((MConverter.tryNext c s).2.2 ≤ 1) ∧
    ((MConverter.tryNext c s).2.2 = 1 →
      (MConverter.tryNext c s).1 = none ∨
        ∃ ce, (MConverter.tryNext c s).1 = some (.error (.Conversion ce))) := by
  obtain ⟨buf, src, st⟩ := s
  refine ⟨?_, ?_, ?_, ?_⟩
  · intro e rest h1 h2
    simp only at h1 h2
    subst h1 h2
    simp [MConverter.tryNext, tryNextLoop]
  · intro i rest st2 outs err h1 h2 hc
    simp only at h1 h2 hc
    subst h1 h2
    simp [MConverter.tryNext, tryNextLoop, hc]
  · rcases buf with _ | ⟨o, os⟩
    · exact tryNextLoop_finalize_count_le_one c src st []
    · simp [MConverter.tryNext]
  · rcases buf with _ | ⟨o, os⟩
    · exact tryNextLoop_finalize_only_terminal c src st []
    · simp [MConverter.tryNext]

/-- Witness for the error-discrimination theorem: with the ASCII decoder, a
source error surfaces `Stream`-tagged with no `finalize` run, and an invalid
byte surfaces `Conversion`-tagged. -/
theorem convertedTryIterator_error_discrimination_witness :
    (MConverter.tryNext ASCIIDecoder.mc
        (⟨[], [.error 7, .ok 0x41], ()⟩ : ConvertedTryIterator Unit Nat Nat Nat) =
      (some (.error (.Stream 7)), ⟨[], [.ok 0x41], ()⟩, 0)) ∧
    (MConverter.tryNext ASCIIDecoder.mc
        (⟨[], [.ok 0xFF], ()⟩ : ConvertedTryIterator Unit Nat Nat Nat) =
      (some (.error (.Conversion .mk)), ⟨[], [], ()⟩, 0)) :=
  ⟨(convertedTryIterator_error_discrimination ASCIIDecoder.mc
      ⟨[], [.error 7, .ok 0x41], ()⟩).1 7 [.ok 0x41] rfl rfl,
   (convertedTryIterator_error_discrimination ASCIIDecoder.mc
      ⟨[], [.ok 0xFF], ()⟩).2.1 0xFF [] () [] .mk rfl rfl (by decide)⟩

/-- C10: whenever `UTF16Decoder::convert` returns an error, the
pending-surrogate buffer has been cleared, leaving the decoder in the
freshly-constructed state, so a subsequent `convert` call behaves exactly
like one on a new decoder. -/
theorem utf16Decoder_error_resets_to_new (s : UTF16Decoder) (item : Nat)
    (e : UTF16EncodingError)
    (h : (UTF16Decoder.convert s item).2.2 = .error e) :
    (UTF16Decoder.convert s item).1 = UTF16Decoder.new := by
  obtain ⟨buf⟩ := s
  rcases buf with _ | w
  · by_cases h1 : item &&& 0xFC00 = 0xD800
    · simp [UTF16Decoder.convert, h1] at h
    · by_cases h2 : item &&& 0xFC00 = 0xDC00
      · simp [UTF16Decoder.convert, UTF16Decoder.new, h1, h2]
      · by_cases h3 : isScalarValue item <;>
          simp [UTF16Decoder.convert, UTF32Decoder.convert, UTF16Decoder.new,
            h1, h2, h3]
  · by_cases h1 : item &&& 0xFC00 = 0xDC00 <;>
      simp [UTF16Decoder.convert, UTF32Decoder.convert, UTF16Decoder.new, h1]

/-- Witness: feeding an ordinary unit while a high surrogate is pending is an
error after which the decoder equals a fresh one. -/
theorem utf16Decoder_error_resets_to_new_witness :
    (UTF16Decoder.convert ⟨some 0xD834⟩ 0x41).1 = UTF16Decoder.new :=
  utf16Decoder_error_resets_to_new ⟨some 0xD834⟩ 0x41 .mk (by decide)

/-- Helper: the 16-bit UTF-16 decoder returns at most one output per unit. -/
theorem utf16Decoder_count_le_one (s : UTF16Decoder) (i n : Nat)
    (h : (UTF16Decoder.convert s i).2.2 = .ok n) : n ≤ 1 := by
  obtain ⟨buf⟩ := s
  rcases buf with _ | w
  all_goals
    simp only [UTF16Decoder.convert, UTF32Decoder.convert] at h
    repeat' split at h
    all_goals simp_all [Except.mapError]
    all_goals omega

/-- C4 (amended): every converter type in the library other than
`ChainedConverter` returns, on every successful `convert` call, a count
within its declared `size_hint` bounds. -/
theorem library_converters_respect_size_hint :
    (∀ i n, (ASCIIDecoder.convert i).2 = .ok n →
      withinHint ASCIIDecoder.size_hint n = true) ∧
    (∀ i n, (ASCIIEncoder.convert i).2 = .ok n →
      withinHint ASCIIEncoder.size_hint n = true) ∧
    (∀ (s : UTF8Decoder) i n, (UTF8Decoder.convert s i).2.2 = .ok n →
      withinHint UTF8Decoder.size_hint n = true) ∧
    (∀ i, withinHint UTF8Encoder.size_hint (UTF8Encoder.convert i).2 = true) ∧
    (∀ (s : UTF16Decoder) i n, (UTF16Decoder.convert s i).2.2 = .ok n →
      withinHint UTF16Decoder.size_hint n = true) ∧
    (∀ i, withinHint UTF16Encoder.size_hint (UTF16Encoder.convert i).2 = true) ∧
    (∀ (s : UTF16BEDecoder) i n, (UTF16BEDecoder.convert s i).2.2 = .ok n →
      withinHint UTF16BEDecoder.size_hint n = true) ∧
    (∀ (s : UTF16LEDecoder) i n, (UTF16LEDecoder.convert s i).2.2 = .ok n →
      withinHint UTF16LEDecoder.size_hint n = true) ∧
    (∀ i, withinHint UTF16BEEncoder.size_hint (UTF16BEEncoder.convert i).2 = true) ∧
    (∀ i, withinHint UTF16LEEncoder.size_hint (UTF16LEEncoder.convert i).2 = true) ∧
    (∀ i n, (UTF32Decoder.convert i).2 = .ok n →
      withinHint UTF32Decoder.size_hint n = true) ∧
    (∀ i, withinHint UTF32Encoder.size_hint (UTF32Encoder.convert i).2 = true) ∧
    (∀ (s : UTF32ByteDecoder) i n, (UTF32BEDecoder.convert s i).2.2 = .ok n →
      withinHint UTF32ByteDecoder.size_hint n = true) ∧
    (∀ (s : UTF32ByteDecoder) i n, (UTF32LEDecoder.convert s i).2.2 = .ok n →
      withinHint UTF32ByteDecoder.size_hint n = true) ∧
    (∀ i, withinHint UTF32BEEncoder.size_hint (UTF32BEEncoder.convert i).2 = true) ∧
    (∀ i, withinHint UTF32LEEncoder.size_hint (UTF32LEEncoder.convert i).2 = true) ∧
    (∀ (s : ExactConverter Nat) (i n : Nat) (s2 : ExactConverter Nat) (outs : List Nat),
      ExactConverter.convert s i = (s2, outs, .ok n) →
      withinHint ExactConverter.size_hint n = true) ∧
    (∀ (I O ε : Type) (f : I → Except ε O) (i : I) (n : Nat),
      (IntoConverter.convert f i).2 = .ok n →
      withinHint IntoConverter.size_hint n = true) ∧
    (∀ (I O : Type) (f : I → O) (i : I),
      withinHint MapConverter.size_hint (MapConverter.convert f i).2 = true) ∧
    (∀ (I O ε : Type) (f : I → Except ε O) (i : I) (n : Nat),
      (TryMapConverter.convert f i).2 = .ok n →
      withinHint TryMapConverter.size_hint n = true) ∧
    (∀ (I O : Type) (f : I → List O) (i : I),
      withinHint IterConverter.size_hint (IterConverter.convert f i).2 = true) ∧
    (∀ (I O ε : Type) (f : I → Except ε (List O)) (i : I) (n : Nat),
      (TryIterConverter.convert f i).2 = .ok n →
      withinHint TryIterConverter.size_hint n = true) := by
  refine ⟨?_, ?_, ?_, ?_, ?_, ?_, ?_, ?_, ?_, ?_, ?_, ?_, ?_, ?_, ?_, ?_, ?_,
    ?_, ?_, ?_, ?_, ?_⟩
  · intro i n h
    simp only [ASCIIDecoder.convert] at h
    split at h <;> simp_all [withinHint, ASCIIDecoder.size_hint]
  · intro i n h
    simp only [ASCIIEncoder.convert] at h
    split at h <;> simp_all [withinHint, ASCIIEncoder.size_hint]
  · intro s i n h
    simp only [UTF8Decoder.convert] at h
    repeat' split at h
    all_goals simp_all [withinHint, UTF8Decoder.size_hint]
    all_goals omega
  · intro i
    simp only [UTF8Encoder.convert, utf8EncodeChar]
    repeat' split
    all_goals simp [withinHint, UTF8Encoder.size_hint]
  · intro s i n h
    have := utf16Decoder_count_le_one s i n h
    simp [withinHint, UTF16Decoder.size_hint]
    omega
  · intro i
    simp only [UTF16Encoder.convert, utf16EncodeChar]
    split <;> simp [withinHint, UTF16Encoder.size_hint]
  · intro s i n h
    obtain ⟨byte, inner⟩ := s
    rcases byte with _ | b
    · simp only [UTF16BEDecoder.convert] at h
      simp_all [withinHint, UTF16BEDecoder.size_hint]
      omega
    · simp only [UTF16BEDecoder.convert] at h
      rcases hc : UTF16Decoder.convert inner ((b <<< 8) ||| i) with ⟨inner2, outs, r⟩
      rw [hc] at h
      dsimp at h
      have hr : (UTF16Decoder.convert inner ((b <<< 8) ||| i)).2.2 = .ok n := by
        rw [hc]; exact h
      have := utf16Decoder_count_le_one inner ((b <<< 8) ||| i) n hr
      simp [withinHint, UTF16BEDecoder.size_hint]
      omega
  · intro s i n h
    obtain ⟨byte, inner⟩ := s
    rcases byte with _ | b
    · simp only [UTF16LEDecoder.convert] at h
      simp_all [withinHint, UTF16LEDecoder.size_hint]
      omega
    · simp only [UTF16LEDecoder.convert] at h
      rcases hc : UTF16Decoder.convert inner ((i <<< 8) ||| b) with ⟨inner2, outs, r⟩
      rw [hc] at h
      dsimp at h
      have hr : (UTF16Decoder.convert inner ((i <<< 8) ||| b)).2.2 = .ok n := by
        rw [hc]; exact h
      have := utf16Decoder_count_le_one inner ((i <<< 8) ||| b) n hr
      simp [withinHint, UTF16LEDecoder.size_hint]
      omega
  · intro i
    simp only [UTF16BEEncoder.convert, utf16EncodeChar]
    split <;> simp [withinHint, UTF16BEEncoder.size_hint]
  · intro i
    simp only [UTF16LEEncoder.convert, utf16EncodeChar]
    split <;> simp [withinHint, UTF16LEEncoder.size_hint]
  · intro i n h
    simp only [UTF32Decoder.convert] at h
    split at h <;> simp_all [withinHint, UTF32Decoder.size_hint]
  · intro i
    simp [withinHint, UTF32Encoder.convert, UTF32Encoder.size_hint]
  · intro s i n h
    simp only [UTF32BEDecoder.convert, UTF32Decoder.convert] at h
    repeat' split at h
    all_goals simp_all [withinHint, UTF32ByteDecoder.size_hint]
    all_goals omega
  · intro s i n h
    simp only [UTF32LEDecoder.convert, UTF32Decoder.convert] at h
    repeat' split at h
    all_goals simp_all [withinHint, UTF32ByteDecoder.size_hint]
    all_goals omega
  · intro i
    simp [withinHint, UTF32BEEncoder.convert, UTF32BEEncoder.size_hint]
  · intro i
    simp [withinHint, UTF32LEEncoder.convert, UTF32LEEncoder.size_hint]
  · intro s i n s2 outs h
    simp only [ExactConverter.convert] at h
    repeat' split at h
    all_goals simp_all [withinHint, ExactConverter.size_hint]
  · intro I O ε f i n h
    simp only [IntoConverter.convert] at h
    split at h <;> simp_all [withinHint, IntoConverter.size_hint]
  · intro I O f i
    simp [withinHint, MapConverter.convert, MapConverter.size_hint]
  · intro I O ε f i n h
    simp only [TryMapConverter.convert] at h
    split at h <;> simp_all [withinHint, TryMapConverter.size_hint]
  · intro I O f i
    simp [withinHint, IterConverter.convert, IterConverter.size_hint]
  · intro I O ε f i n h
    simp only [TryIterConverter.convert] at h
    split at h <;> simp_all [withinHint, TryIterConverter.size_hint]

/-- Witness for the size-hint theorem at concrete successful calls. -/
theorem library_converters_respect_size_hint_witness :
    (withinHint ASCIIDecoder.size_hint 1 = true) ∧
    (withinHint UTF16BEDecoder.size_hint 0 = true) :=
  ⟨library_converters_respect_size_hint.1 0x41 1 (by decide),
   library_converters_respect_size_hint.2.2.2.2.2.2.1 UTF16BEDecoder.new 0x00 0
     (by decide)⟩
